import Mathlib

/-!
Verification development for the metrics-preparation script of the
ecg-arrhythmia-dashboard repository (scripts/prepare_metrics.py).

The script scans WFDB header files, extracts SNOMED diagnostic codes from
lines starting with the marker string, classifies each record into one
of four categories, and writes frequency and coverage tables.  Below we give
a shallow embedding of that pipeline: header files are records carrying a
stem and a list of text lines, and each pass of the script becomes a fold
over the list of header files.
-/

namespace EcgPrep

/-! ## Text utilities

Models of the Python string operations used by the script:
`str.split()` on whitespace, `re.split` on the separator class, and the
numeric conversions `int(...)` and `float(...)` (the latter restricted to
the plain decimal grammar, which covers every value the script meets; the
exponent and special forms of the Python float grammar are not modelled).
-/

/-- Splitter worker: accumulates the current token (reversed) while walking
the character list, emitting a token at each separator run boundary.  This
models splitting on a separator class followed by dropping empty pieces. -/
def tokenizeGo (sep : Char → Bool) (cur : List Char) : List Char → List String
  | [] => if cur.isEmpty then [] else [String.mk cur.reverse]
  | c :: rest =>
    if sep c then
      if cur.isEmpty then tokenizeGo sep [] rest
      else String.mk cur.reverse :: tokenizeGo sep [] rest
    else tokenizeGo sep (c :: cur) rest

/-- Split a character list at every run of separator characters, keeping only
the non-empty tokens (as Python `re.split` + filtering empties does). -/
def tokenize (sep : Char → Bool) (cs : List Char) : List String :=
  tokenizeGo sep [] cs

/-- The separator class `[,:\s]+` used for `#Dx:` payloads. -/
def isSepChar (c : Char) : Bool := c = ',' || c = ':' || c.isWhitespace

/-- Python `str.split()` with no argument: split on whitespace runs. -/
def splitWs (s : String) : List String := tokenize Char.isWhitespace s.data

/-- Numeric value of a digit character. -/
def digitVal (c : Char) : Nat := c.toNat - 48

/-- Value of a digit string read in base 10 (0 on the empty list). -/
def digitsVal (cs : List Char) : Nat := cs.foldl (fun n c => 10 * n + digitVal c) 0

/-- Parse a non-empty all-digit character list, else fail. -/
def digits? (cs : List Char) : Option Nat :=
  if cs ≠ [] ∧ cs.all Char.isDigit then some (digitsVal cs) else none

/-- Model of Python `int(...)` on a token: optional sign then digits. -/
def pyInt? (s : String) : Option Int :=
  match s.data with
  | '-' :: cs => (digits? cs).map (fun n => -(n : Int))
  | '+' :: cs => (digits? cs).map (fun n => (n : Int))
  | cs => (digits? cs).map (fun n => (n : Int))

/-- Unsigned decimal float body: digits, optionally with one decimal point;
at least one digit overall. -/
def unsignedFloat? (cs : List Char) : Option ℚ :=
  let ip := cs.takeWhile (fun c => c ≠ '.')
  match cs.dropWhile (fun c => c ≠ '.') with
  | [] => (digits? ip).map (fun n => (n : ℚ))
  | _ :: fp =>
    if (ip.all Char.isDigit ∧ fp.all Char.isDigit) ∧ ¬(ip = [] ∧ fp = []) then
      some ((digitsVal ip : ℚ) + (digitsVal fp : ℚ) / (10 : ℚ) ^ fp.length)
    else none

/-- Model of Python `float(...)` on a token (plain decimal grammar). -/
def pyFloat? (s : String) : Option ℚ :=
  match s.data with
  | '-' :: cs => (unsignedFloat? cs).map (fun q => -q)
  | '+' :: cs => unsignedFloat? cs
  | cs => unsignedFloat? cs

/-! ## Header files and diagnostic-code extraction -/

/-- One WFDB header file: the record id is the file stem, the content is the
list of text lines (`read_text().splitlines()`). -/
structure HeaderFile where
  stem : String
  lines : List String

/-- `line.startswith("#Dx:")`. -/
def isDxLine (ln : String) : Bool := ln.data.take 4 == ['#', 'D', 'x', ':']

/-- The code tokens of one line: for a `#Dx:` line, the payload after the
first colon (which sits right after the marker) split on `[,:\s]+` with
empties dropped; for any other line, nothing.  Models
`re.split(r"[,:\s]+", line.split(":", 1)[1])` plus the strip/filter. -/
def dxTokens (ln : String) : List String :=
  if isDxLine ln then tokenize isSepChar (ln.data.drop 4) else []

/-- All code tokens contributed by one header file, in line order. -/
def fileDxTokens (f : HeaderFile) : List String := f.lines.flatMap dxTokens

/-- The `codes_all` list: every textual code mention across all header
files, in scan order (`codes_all.extend(cs)` inside the scan loop). -/
def codesAll (files : List HeaderFile) : List String := files.flatMap fileDxTokens

/-- The `found_codes` set: `found_codes.update(cs)` receives exactly the
same tokens as `codes_all`, so it is the set of elements of `codesAll`. -/
def foundCodes (files : List HeaderFile) : Finset String := (codesAll files).toFinset

/-! ## Coverage metrics (`metrics.json`) -/

/-- The set of codes listed in the reference CSV
(`set(conditions["Snomed_CT"])`); the CSV rows are code/name pairs. -/
def allCodes (conditions : List (String × String)) : Finset String :=
  (conditions.map Prod.fst).toFinset

/-- The four coverage counts written to `metrics.json`. -/
structure CoverageMetrics where
  n_found : Nat
  n_listed : Nat
  n_missing : Nat
  n_extra : Nat
deriving DecidableEq

/-- The `metrics` dictionary of the script. -/
def coverageMetrics (conditions : List (String × String)) (files : List HeaderFile) :
    CoverageMetrics :=
  { n_found := (foundCodes files).card
    n_listed := (allCodes conditions).card
    n_missing := ((allCodes conditions) \ (foundCodes files)).card
    n_extra := ((foundCodes files) \ (allCodes conditions)).card }

/-! ## Code frequency and the top-N table (`top_codes.csv`)

`freq = Counter(codes_all)` counts every mention; `freq.items()` yields the
codes in first-encounter order; `DataFrame(...).sort_values("count",
ascending=False).head(topn)` sorts descending and truncates.  Pandas
realises a descending sort by reversing an ascending argsort (`nargsort`
reverses the indexer when `ascending=False`).  The default argsort kind is
an unstable introsort, so the program fixes no tie order in general; the
argsort is stable exactly on arrays small enough to fall entirely into the
insertion-sort base case.  We model the pass with a stable ascending
insertion sort followed by `reverse`: this agrees with the program on
base-case-sized tables (such as the concrete runs below), and the
count-level conclusions proved about it (row bound, descending counts)
hold for the reversal of any correct ascending sort, stable or not.  The
subsequent `assign` of name/status columns keeps rows and row order
unchanged, so the row order of `top_codes.csv` is the order of
`topTable`. -/

/-- Keys of a list in first-encounter order (the key order of a
`Counter` built by repeated insertion). -/
def dedupFirst (l : List String) : List String :=
  l.foldl (fun acc x => if x ∈ acc then acc else acc ++ [x]) []

/-- `Counter(codes_all).items()`: first-encounter-ordered codes with their
mention counts. -/
def freqItems (codes : List String) : List (String × Nat) :=
  (dedupFirst codes).map (fun c => (c, codes.count c))

/-- Stable insertion of a row into an ascending-by-count list: the new row
goes before the first row of count ≥ its own. -/
def insertAsc (x : String × Nat) : List (String × Nat) → List (String × Nat)
  | [] => [x]
  | y :: ys => if x.2 ≤ y.2 then x :: y :: ys else y :: insertAsc x ys

/-- Stable ascending-by-count insertion sort. -/
def sortAsc : List (String × Nat) → List (String × Nat)
  | [] => []
  | x :: xs => insertAsc x (sortAsc xs)

/-- `sort_values("count", ascending=False)`: an ascending sort, then
reverse, per the pandas `nargsort` implementation of descending order.
The insertion sort used here is stable, which the default numpy argsort is
not beyond its insertion-sort base case, so tie-order facts about this
model reflect the program only on base-case-sized inputs; count-level
facts (length, descending counts) are insensitive to the choice. -/
def sortValuesDesc (rows : List (String × Nat)) : List (String × Nat) :=
  (sortAsc rows).reverse

/-- The rows of `top_codes.csv` for a run over `files` with `--topn n`. -/
def topTable (n : Nat) (files : List HeaderFile) : List (String × Nat) :=
  (sortValuesDesc (freqItems (codesAll files))).take n

/-! ## Header statistics pass (durations, leads, sampling rates) -/

/-- The accumulated state of the statistics loop: the two `Counter`s, the
duration list and the bad-header counter. -/
structure Stats where
  fs_counts : ℚ → Nat
  lead_counts : Int → Nat
  dur_secs : List ℚ
  bad_headers : Nat

/-- Increment a counter at one key. -/
def bump {α : Type} [DecidableEq α] (f : α → Nat) (a : α) : α → Nat :=
  fun x => if x = a then f x + 1 else f x

/-- `next(l for l in lines if not l.startswith("#"))`, or failure. -/
def firstNonComment? (lines : List String) : Option String :=
  lines.find? (fun l => !(l.data.take 1 == ['#']))

/-- Extraction of `(n_sig, fs, nsamp)` from the first non-comment line:
whitespace-tokenize it and convert fields 1, 2, 3; any missing field or
failed conversion is a parse failure (the `except` path). -/
def parseFields (lines : List String) : Option (Int × ℚ × Int) :=
  match firstNonComment? lines with
  | none => none
  | some first =>
    let parts := splitWs first
    match (parts.get? 1).bind pyInt?, (parts.get? 2).bind pyFloat?,
          (parts.get? 3).bind pyInt? with
    | some nsig, some fs, some nsamp => some (nsig, fs, nsamp)
    | _, _, _ => none

/-- Empty statistics state. -/
def initStats : Stats :=
  { fs_counts := fun _ => 0, lead_counts := fun _ => 0, dur_secs := [], bad_headers := 0 }

/-- One iteration of the statistics loop.  On parse failure only the
bad-header counter moves.  On success the two counters are bumped and the
duration `nsamp / fs` is appended — except that a zero sampling rate makes
the division raise after the counters were already bumped, so that file is
counted bad while still appearing in the lead and sampling-rate counters. -/
def statsStep (st : Stats) (f : HeaderFile) : Stats :=
  match parseFields f.lines with
  | none => { st with bad_headers := st.bad_headers + 1 }
  | some (nsig, fs, nsamp) =>
    if fs = 0 then
      { st with lead_counts := bump st.lead_counts nsig,
                fs_counts := bump st.fs_counts fs,
                bad_headers := st.bad_headers + 1 }
    else
      { st with lead_counts := bump st.lead_counts nsig,
                fs_counts := bump st.fs_counts fs,
                dur_secs := st.dur_secs ++ [(nsamp : ℚ) / fs] }

/-- The whole statistics pass over the scanned header files. -/
def runStats (files : List HeaderFile) : Stats := files.foldl statsStep initStats

/-! ## The per-record code-set mapping (`record_codes`)

`record_codes = defaultdict(set)`; for every header file and every `#Dx:`
line in it, `record_codes[rec_id].update(cs)`.  A Python dict keeps keys in
first-insertion order, so we model it as an association list: updating an
absent key appends a fresh entry at the end, updating a present key unions
into its value in place.  Files without any `#Dx:` line never touch the
dict (the defaultdict entry is only created inside the `#Dx:` branch). -/

/-- `record_codes[k].update(cs)` on the insertion-ordered dict `m`. -/
def dictUpdate : List (String × Finset String) → String → Finset String →
    List (String × Finset String)
  | [], k, cs => [(k, cs)]
  | (k₀, v) :: rest, k, cs =>
    if k₀ = k then (k₀, v ∪ cs) :: rest else (k₀, v) :: dictUpdate rest k cs

/-- Processing one line of a header file with stem `stem`: only a `#Dx:`
line updates the dict, with the set of its code tokens. -/
def lineStep (stem : String) (m : List (String × Finset String)) (ln : String) :
    List (String × Finset String) :=
  if isDxLine ln then dictUpdate m stem (dxTokens ln).toFinset else m

/-- Processing one header file: fold its lines. -/
def fileStep (m : List (String × Finset String)) (f : HeaderFile) :
    List (String × Finset String) :=
  f.lines.foldl (lineStep f.stem) m

/-- The full `record_codes` mapping built from the scanned header files. -/
def recordCodes (files : List HeaderFile) : List (String × Finset String) :=
  files.foldl fileStep []

/-- First-match association lookup (dict indexing). -/
def lookupRec : List (String × Finset String) → String → Option (Finset String)
  | [], _ => none
  | (k₀, v) :: rest, k => if k₀ = k then some v else lookupRec rest k

/-- The union of the `#Dx:` code sets of one file (the value the dict ends
up holding for a fresh stem after the file is processed). -/
def fileDxCodes (f : HeaderFile) : Finset String :=
  f.lines.foldl (fun acc ln => if isDxLine ln then acc ∪ (dxTokens ln).toFinset else acc) ∅

/-! ## Classifier and category tallies (`normal_split.json`) -/

/-- `SINUS_RHYTHM = {"426783006"}`. -/
def SINUS_RHYTHM : Finset String := {"426783006"}

/-- `BORDERLINE_ONLY = {"426177001", "427084000", "427393009"}`. -/
def BORDERLINE_ONLY : Finset String := {"426177001", "427084000", "427393009"}

/-- The four top-level categories. -/
inductive Category where
  | normal
  | borderline
  | arrhythmia
  | unlabeled
deriving DecidableEq

/-- The branch structure of the classification loop body: empty set first,
then equality with the sinus singleton, then inclusion in the borderline
set, and everything else is Arrhythmia. -/
def classify (cset : Finset String) : Category :=
  if cset = ∅ then Category.unlabeled
  else if cset = SINUS_RHYTHM then Category.normal
  else if cset ⊆ BORDERLINE_ONLY then Category.borderline
  else Category.arrhythmia

/-- The four counters `n_normal`, `n_border`, `n_arr`, `n_unlabeled`. -/
structure SplitCounts where
  n_normal : Nat
  n_border : Nat
  n_arr : Nat
  n_unlabeled : Nat
deriving DecidableEq

/-- One iteration of the tally loop over `record_codes.items()`. -/
def splitStep (acc : SplitCounts) (r : String × Finset String) : SplitCounts :=
  match classify r.2 with
  | Category.unlabeled => { acc with n_unlabeled := acc.n_unlabeled + 1 }
  | Category.normal => { acc with n_normal := acc.n_normal + 1 }
  | Category.borderline => { acc with n_border := acc.n_border + 1 }
  | Category.arrhythmia => { acc with n_arr := acc.n_arr + 1 }

/-- The four category counts over a record list. -/
def splitCounts (records : List (String × Finset String)) : SplitCounts :=
  records.foldl splitStep ⟨0, 0, 0, 0⟩

/-- The `total` field of `normal_split.json` is `len(record_codes)`. -/
def splitTotal (records : List (String × Finset String)) : Nat := records.length

/-! ## Per-arrhythmia-code occurrences (`arrhythmia_subtypes.csv`) -/

/-- One iteration of the `arr_per_code` loop: skip empty, sinus-only and
borderline-only records, then for each code of the record that is neither
the sinus code nor a borderline code, bump its counter once.  The counter
is modelled pointwise as a function from codes to counts. -/
def arrStep (acc : String → Nat) (r : String × Finset String) : String → Nat :=
  if r.2 = ∅ then acc
  else if r.2 = SINUS_RHYTHM then acc
  else if r.2 ⊆ BORDERLINE_ONLY then acc
  else fun c =>
    if c ∈ r.2 ∧ c ∉ SINUS_RHYTHM ∧ c ∉ BORDERLINE_ONLY then acc c + 1 else acc c

/-- The `arr_per_code` Counter after the loop over `record_codes.items()`. -/
def arrPerCode (records : List (String × Finset String)) : String → Nat :=
  records.foldl arrStep (fun _ => 0)

/-! ## Characterizations of the classifier branches -/

theorem sinus_ne_empty : SINUS_RHYTHM ≠ (∅ : Finset String) := by decide

theorem empty_ne_sinus : (∅ : Finset String) ≠ SINUS_RHYTHM := by decide

theorem classify_eq_unlabeled_iff (cset : Finset String) :
    classify cset = Category.unlabeled ↔ cset = ∅ := by
  unfold classify
  split_ifs with h1 h2 h3 <;> simp_all [sinus_ne_empty, empty_ne_sinus]

theorem classify_eq_normal_iff (cset : Finset String) :
    classify cset = Category.normal ↔ cset = SINUS_RHYTHM := by
  unfold classify
  split_ifs with h1 h2 h3 <;> simp_all [sinus_ne_empty, empty_ne_sinus]

theorem classify_eq_borderline_iff (cset : Finset String) :
    classify cset = Category.borderline ↔
      cset ≠ ∅ ∧ cset ≠ SINUS_RHYTHM ∧ cset ⊆ BORDERLINE_ONLY := by
  unfold classify
  split_ifs with h1 h2 h3 <;> simp_all

theorem classify_eq_arrhythmia_iff (cset : Finset String) :
    classify cset = Category.arrhythmia ↔
      cset ≠ ∅ ∧ cset ≠ SINUS_RHYTHM ∧ ¬cset ⊆ BORDERLINE_ONLY := by
  unfold classify
  split_ifs with h1 h2 h3 <;> simp_all

/-! ## The tally loop computes countP of the classifier -/

theorem foldl_splitStep (records : List (String × Finset String)) (acc : SplitCounts) :
    records.foldl splitStep acc =
      ⟨acc.n_normal + records.countP (fun r => decide (classify r.2 = Category.normal)),
       acc.n_border + records.countP (fun r => decide (classify r.2 = Category.borderline)),
       acc.n_arr + records.countP (fun r => decide (classify r.2 = Category.arrhythmia)),
       acc.n_unlabeled + records.countP (fun r => decide (classify r.2 = Category.unlabeled))⟩ := by
  induction records generalizing acc with
  | nil => simp
  | cons r rs ih =>
    rw [List.foldl_cons, ih]
    cases h : classify r.2 <;>
      simp [splitStep, h, List.countP_cons, SplitCounts.mk.injEq] <;> omega

theorem countP_classify_total (records : List (String × Finset String)) :
    records.countP (fun r => decide (classify r.2 = Category.normal)) +
      records.countP (fun r => decide (classify r.2 = Category.borderline)) +
      records.countP (fun r => decide (classify r.2 = Category.arrhythmia)) +
      records.countP (fun r => decide (classify r.2 = Category.unlabeled))
      = records.length := by
  induction records with
  | nil => simp
  | cons r rs ih =>
    cases h : classify r.2 <;> simp [List.countP_cons, h] <;> omega

/-- C1: every record of the per-record mapping is counted in exactly the one
category the classifier assigns it (the four counters are the `countP` of
the four classifier outcomes), and the four category counts of
`normal_split.json` sum exactly to its `total` field, which is the number
of records in the mapping. -/
theorem normal_split_partition (records : List (String × Finset String)) :
    ((splitCounts records).n_normal
        = records.countP (fun r => decide (classify r.2 = Category.normal)) ∧
      (splitCounts records).n_border
        = records.countP (fun r => decide (classify r.2 = Category.borderline)) ∧
      (splitCounts records).n_arr
        = records.countP (fun r => decide (classify r.2 = Category.arrhythmia)) ∧
      (splitCounts records).n_unlabeled
        = records.countP (fun r => decide (classify r.2 = Category.unlabeled))) ∧
    ((splitCounts records).n_normal + (splitCounts records).n_border +
        (splitCounts records).n_arr + (splitCounts records).n_unlabeled
      = splitTotal records ∧
      splitTotal records = records.length) := by
  have h := foldl_splitStep records ⟨0, 0, 0, 0⟩
  unfold splitCounts splitTotal
  rw [h]
  refine ⟨⟨?_, ?_, ?_, ?_⟩, ?_, rfl⟩ <;> simp only [Nat.zero_add]
  exact countP_classify_total records

/-- C2: a record classifies as Normal exactly when its code set is the
sinus-rhythm singleton, and any code set containing the sinus code together
with at least one other code classifies as Arrhythmia. -/
theorem normal_requires_exact_singleton (cset : Finset String) :
    (classify cset = Category.normal ↔ cset = SINUS_RHYTHM) ∧
    ("426783006" ∈ cset → cset ≠ SINUS_RHYTHM → classify cset = Category.arrhythmia) := by
  refine ⟨classify_eq_normal_iff cset, fun hm hne => ?_⟩
  rw [classify_eq_arrhythmia_iff]
  refine ⟨Finset.ne_empty_of_mem hm, hne, fun hsub => ?_⟩
  exact absurd (hsub hm) (by decide)

theorem normal_requires_exact_singleton_w :
    classify SINUS_RHYTHM = Category.normal ∧
    "426783006" ∈ ({"426783006", "164889003"} : Finset String) ∧
    ({"426783006", "164889003"} : Finset String) ≠ SINUS_RHYTHM ∧
    classify {"426783006", "164889003"} = Category.arrhythmia :=
  ⟨(normal_requires_exact_singleton SINUS_RHYTHM).1.mpr rfl,
   by decide, by decide,
   (normal_requires_exact_singleton {"426783006", "164889003"}).2 (by decide) (by decide)⟩

/-- C5: a non-empty code set inside the three borderline codes classifies as
Borderline, and inserting any code from outside that set yields a code set
that classifies as Arrhythmia. -/
theorem borderline_subset_rules (cset : Finset String) (h1 : cset ≠ ∅)
    (h2 : cset ⊆ BORDERLINE_ONLY) :
    classify cset = Category.borderline ∧
    ∀ x, x ∉ BORDERLINE_ONLY → classify (insert x cset) = Category.arrhythmia := by
  have hns : cset ≠ SINUS_RHYTHM := by
    rintro rfl
    have hm : ("426783006" : String) ∈ SINUS_RHYTHM := by decide
    exact absurd (h2 hm) (by decide)
  constructor
  · rw [classify_eq_borderline_iff]
    exact ⟨h1, hns, h2⟩
  · intro x hx
    rw [classify_eq_arrhythmia_iff]
    refine ⟨Finset.insert_ne_empty x cset, fun heq => ?_, fun hsub => ?_⟩
    · obtain ⟨b, hb⟩ := Finset.nonempty_iff_ne_empty.mpr h1
      have hbS : b ∈ SINUS_RHYTHM := heq ▸ Finset.mem_insert_of_mem hb
      have hbv : b = "426783006" := by simpa [SINUS_RHYTHM] using hbS
      have hbB : b ∈ BORDERLINE_ONLY := h2 hb
      rw [hbv] at hbB
      exact absurd hbB (by decide)
    · exact hx (hsub (Finset.mem_insert_self x cset))

theorem borderline_subset_rules_w :
    ({"426177001"} : Finset String) ≠ ∅ ∧
    ({"426177001"} : Finset String) ⊆ BORDERLINE_ONLY ∧
    ("164889003" : String) ∉ BORDERLINE_ONLY ∧
    classify {"426177001"} = Category.borderline ∧
    classify (insert "164889003" {"426177001"}) = Category.arrhythmia :=
  ⟨by decide, by decide, by decide,
   (borderline_subset_rules {"426177001"} (by decide) (by decide)).1,
   (borderline_subset_rules {"426177001"} (by decide) (by decide)).2 "164889003" (by decide)⟩

/-- C7: the missing count plus the count of codes both found and listed
equals the listed count, and the extra count is the number of found codes
outside the listed set. -/
theorem coverage_identities (conditions : List (String × String)) (files : List HeaderFile) :
    (coverageMetrics conditions files).n_missing +
        ((foundCodes files) ∩ (allCodes conditions)).card
      = (coverageMetrics conditions files).n_listed ∧
    (coverageMetrics conditions files).n_extra
      = ((foundCodes files) \ (allCodes conditions)).card := by
  refine ⟨?_, rfl⟩
  have h := Finset.card_sdiff_add_card_inter (allCodes conditions) (foundCodes files)
  rw [Finset.inter_comm] at h
  simpa [coverageMetrics] using h

/-- C3 fails on the code: `Counter(codes_all)` counts textual mentions, so a
record whose header mentions the same code twice in its `#Dx:` line drives
that count to 2 while only one record contains the code. -/
theorem freq_counts_mentions_cx :
    (codesAll [⟨"R1", ["#Dx: 10,10"]⟩]).count "10" = 2 ∧
    (recordCodes [⟨"R1", ["#Dx: 10,10"]⟩]).countP (fun r => decide ("10" ∈ r.2)) = 1 ∧
    (2 : Nat) ≠ 1 := by
  exact ⟨by decide, by decide, by decide⟩

/-- C3 amended: the occurrence count underlying the top-N table counts every
textual mention: it is the sum over header files of the number of mentions
of the code among that file Dx tokens (duplicate mentions within one record
each count). -/
theorem freq_counts_mentions (files : List HeaderFile) (c : String) :
    (codesAll files).count c = (files.map (fun f => (fileDxTokens f).count c)).sum := by
  unfold codesAll
  induction files with
  | nil => rfl
  | cons f fs ih => simp [List.count_append, ih]

/-! ## Order properties of the top-N table -/

theorem mem_insertAsc {z x : String × Nat} {ys : List (String × Nat)} :
    z ∈ insertAsc x ys ↔ z = x ∨ z ∈ ys := by
  induction ys with
  | nil => simp [insertAsc]
  | cons y ys ih =>
    unfold insertAsc
    split_ifs with h
    · simp [List.mem_cons]
    · simp only [List.mem_cons, ih]
      tauto

theorem mem_sortAsc {z : String × Nat} {l : List (String × Nat)} :
    z ∈ sortAsc l ↔ z ∈ l := by
  induction l with
  | nil => simp [sortAsc]
  | cons x xs ih => simp [sortAsc, mem_insertAsc, ih]

theorem sorted_insertAsc {x : String × Nat} {ys : List (String × Nat)}
    (h : ys.Pairwise (fun a b => a.2 ≤ b.2)) :
    (insertAsc x ys).Pairwise (fun a b => a.2 ≤ b.2) := by
  induction ys with
  | nil => simp [insertAsc]
  | cons y ys ih =>
    rw [List.pairwise_cons] at h
    obtain ⟨hy, hys⟩ := h
    unfold insertAsc
    split_ifs with hxy
    · rw [List.pairwise_cons]
      refine ⟨fun b hb => ?_, List.pairwise_cons.mpr ⟨hy, hys⟩⟩
      rcases List.mem_cons.mp hb with rfl | hb
      · exact hxy
      · exact le_trans hxy (hy b hb)
    · rw [List.pairwise_cons]
      refine ⟨fun b hb => ?_, ih hys⟩
      rcases mem_insertAsc.mp hb with rfl | hb
      · omega
      · exact hy b hb

theorem sorted_sortAsc (l : List (String × Nat)) :
    (sortAsc l).Pairwise (fun a b => a.2 ≤ b.2) := by
  induction l with
  | nil => simp [sortAsc]
  | cons x xs ih => exact sorted_insertAsc ih

/-- C4 fails on the code: with two codes of equal count, the first code
encountered ("10", before "20") ends up in the second row of the table,
because the descending sort reverses an ascending argsort (on this
two-row table the argsort is its stable insertion-sort base case, so the
program's output here is determined and matches the model). -/
theorem topTable_tie_order_cx :
    topTable 15 [⟨"R1", ["#Dx: 10,20"]⟩] = [("20", 1), ("10", 1)] ∧
    dedupFirst (codesAll [⟨"R1", ["#Dx: 10,20"]⟩]) = ["10", "20"] := by
  exact ⟨by decide, by decide⟩

/-- C4 amended: tie order in the top-N table is not the input encounter
order — the program delegates it to the reversal of the library argsort —
and there are runs whose tied rows appear in reverse input encounter
order: a run with two codes of equal count lists the later-encountered
code first. -/
theorem topTable_tie_order_unspecified :
    ∃ files : List HeaderFile, ∃ n : Nat, ∃ a b : String × Nat,
      topTable n files = [a, b] ∧ a.2 = b.2 ∧ a.1 ≠ b.1 ∧
      (dedupFirst (codesAll files)).indexOf b.1
        < (dedupFirst (codesAll files)).indexOf a.1 := by
  refine ⟨[⟨"R1", ["#Dx: 10,20"]⟩], 15, ("20", 1), ("10", 1), ?_, ?_, ?_, ?_⟩ <;> decide

/-- C8: the top-N table has at most N rows and its rows are sorted in
descending order of count. -/
theorem topTable_bounded_sorted (n : Nat) (files : List HeaderFile) :
    (topTable n files).length ≤ n ∧
    (topTable n files).Pairwise (fun a b => b.2 ≤ a.2) := by
  constructor
  · simp [topTable, List.length_take]
  · unfold topTable sortValuesDesc
    refine List.Pairwise.sublist (List.take_sublist ..) ?_
    rw [List.pairwise_reverse]
    exact sorted_sortAsc _

/-! ## The per-arrhythmia-code table -/

theorem arrStep_apply (acc : String → Nat) (r : String × Finset String) (c : String)
    (hc1 : c ∉ SINUS_RHYTHM) (hc2 : c ∉ BORDERLINE_ONLY) :
    (arrStep acc r) c =
      acc c + (if classify r.2 = Category.arrhythmia ∧ c ∈ r.2 then 1 else 0) := by
  unfold arrStep
  split_ifs with h1 h2 h3 <;>
    simp_all [classify_eq_arrhythmia_iff]

theorem foldl_arrStep (records : List (String × Finset String)) (acc : String → Nat)
    (c : String) (hc1 : c ∉ SINUS_RHYTHM) (hc2 : c ∉ BORDERLINE_ONLY) :
    (records.foldl arrStep acc) c =
      acc c + records.countP (fun r => decide (classify r.2 = Category.arrhythmia ∧ c ∈ r.2)) := by
  induction records generalizing acc with
  | nil => simp
  | cons r rs ih =>
    rw [List.foldl_cons, ih (arrStep acc r), arrStep_apply acc r c hc1 hc2,
      List.countP_cons]
    by_cases hp : classify r.2 = Category.arrhythmia ∧ c ∈ r.2
    · simp only [hp, if_true, decide_eq_true_eq]
      omega
    · simp [hp]

/-- C6: for every code outside the sinus and borderline reference sets (the
only codes eligible for rows of `arrhythmia_subtypes.csv`), its count equals
the number of records classified as Arrhythmia whose code set contains it —
one per containing record, and only Arrhythmia records contribute. -/
theorem arr_subtype_counts (records : List (String × Finset String)) (c : String)
    (hc1 : c ∉ SINUS_RHYTHM) (hc2 : c ∉ BORDERLINE_ONLY) :
    arrPerCode records c =
      records.countP (fun r => decide (classify r.2 = Category.arrhythmia ∧ c ∈ r.2)) := by
  unfold arrPerCode
  rw [foldl_arrStep records _ c hc1 hc2]
  exact Nat.zero_add _

theorem arr_subtype_counts_w :
    ("164889003" : String) ∉ SINUS_RHYTHM ∧
    ("164889003" : String) ∉ BORDERLINE_ONLY ∧
    arrPerCode [("R1", {"164889003", "426783006"}), ("R2", {"426783006"})] "164889003"
      = [(("R1" : String), ({"164889003", "426783006"} : Finset String)),
         ("R2", {"426783006"})].countP
          (fun r => decide (classify r.2 = Category.arrhythmia ∧ "164889003" ∈ r.2)) ∧
    arrPerCode [("R1", {"164889003", "426783006"}), ("R2", {"426783006"})] "164889003" = 1 :=
  ⟨by decide, by decide,
   arr_subtype_counts [("R1", {"164889003", "426783006"}), ("R2", {"426783006"})]
     "164889003" (by decide) (by decide),
   by decide⟩

/-! ## Error handling of the statistics pass -/

/-- C9: a header file whose first non-comment line does not parse only bumps
the bad-header counter — the duration list and the lead and sampling-rate
counters are untouched — while the statistics pass continues over the
remaining files and the code-based passes still receive every `#Dx:` token
of that file. -/
theorem bad_header_handling (fs1 fs2 : List HeaderFile) (f : HeaderFile)
    (hbad : parseFields f.lines = none) :
    runStats (fs1 ++ f :: fs2) = fs2.foldl statsStep (statsStep (runStats fs1) f) ∧
    statsStep (runStats fs1) f
      = { runStats fs1 with bad_headers := (runStats fs1).bad_headers + 1 } ∧
    (∀ c ∈ fileDxTokens f, c ∈ codesAll (fs1 ++ f :: fs2)) ∧
    recordCodes (fs1 ++ f :: fs2) = fs2.foldl fileStep (fileStep (recordCodes fs1) f) := by
  refine ⟨?_, ?_, ?_, ?_⟩
  · unfold runStats
    rw [List.foldl_append, List.foldl_cons]
  · unfold statsStep
    rw [hbad]
  · intro c hc
    unfold codesAll
    rw [List.mem_flatMap]
    exact ⟨f, by simp, hc⟩
  · unfold recordCodes
    rw [List.foldl_append, List.foldl_cons]

theorem bad_header_handling_w :
    parseFields (HeaderFile.mk "B1" ["#Dx: 164889003", "B1 12 bad 5000"]).lines = none ∧
    (runStats ([] ++ HeaderFile.mk "B1" ["#Dx: 164889003", "B1 12 bad 5000"] :: [])
        = [].foldl statsStep
            (statsStep (runStats []) (HeaderFile.mk "B1" ["#Dx: 164889003", "B1 12 bad 5000"])) ∧
      statsStep (runStats []) (HeaderFile.mk "B1" ["#Dx: 164889003", "B1 12 bad 5000"])
        = { runStats [] with bad_headers := (runStats []).bad_headers + 1 } ∧
      (∀ c ∈ fileDxTokens (HeaderFile.mk "B1" ["#Dx: 164889003", "B1 12 bad 5000"]),
        c ∈ codesAll ([] ++ HeaderFile.mk "B1" ["#Dx: 164889003", "B1 12 bad 5000"] :: [])) ∧
      recordCodes ([] ++ HeaderFile.mk "B1" ["#Dx: 164889003", "B1 12 bad 5000"] :: [])
        = [].foldl fileStep
            (fileStep (recordCodes [])
              (HeaderFile.mk "B1" ["#Dx: 164889003", "B1 12 bad 5000"]))) :=
  ⟨by decide, bad_header_handling [] [] _ (by decide)⟩

/-! ## Lookup lemmas for the per-record mapping -/

theorem lookupRec_dictUpdate_self (m : List (String × Finset String)) (k : String)
    (cs : Finset String) :
    lookupRec (dictUpdate m k cs) k = some ((lookupRec m k).getD ∅ ∪ cs) := by
  induction m with
  | nil => simp [dictUpdate, lookupRec]
  | cons e rest ih =>
    obtain ⟨k₀, v⟩ := e
    by_cases hk : k₀ = k
    · simp [dictUpdate, lookupRec, hk]
    · simp [dictUpdate, lookupRec, hk, ih]

theorem lookupRec_dictUpdate_other (m : List (String × Finset String)) (k k₁ : String)
    (cs : Finset String) (h : k₁ ≠ k) :
    lookupRec (dictUpdate m k cs) k₁ = lookupRec m k₁ := by
  induction m with
  | nil => simp [dictUpdate, lookupRec, Ne.symm h]
  | cons e rest ih =>
    obtain ⟨k₀, v⟩ := e
    by_cases hk : k₀ = k
    · subst hk
      simp [dictUpdate, lookupRec, Ne.symm h]
    · simp [dictUpdate, lookupRec, hk, ih]

theorem lookupRec_lineStep_other (stem : String) (m : List (String × Finset String))
    (ln : String) (k : String) (h : k ≠ stem) :
    lookupRec (lineStep stem m ln) k = lookupRec m k := by
  unfold lineStep
  split_ifs with hdx
  · exact lookupRec_dictUpdate_other m stem k _ h
  · rfl

theorem lookupRec_foldl_lineStep_other (stem : String) (lines : List String)
    (m : List (String × Finset String)) (k : String) (h : k ≠ stem) :
    lookupRec (lines.foldl (lineStep stem) m) k = lookupRec m k := by
  induction lines generalizing m with
  | nil => rfl
  | cons ln rest ih =>
    rw [List.foldl_cons, ih, lookupRec_lineStep_other stem m ln k h]

theorem lookupRec_fileStep_other (m : List (String × Finset String)) (g : HeaderFile)
    (k : String) (h : k ≠ g.stem) :
    lookupRec (fileStep m g) k = lookupRec m k :=
  lookupRec_foldl_lineStep_other g.stem g.lines m k h

theorem lookupRec_foldl_fileStep_other (files : List HeaderFile)
    (m : List (String × Finset String)) (k : String)
    (h : k ∉ files.map HeaderFile.stem) :
    lookupRec (files.foldl fileStep m) k = lookupRec m k := by
  induction files generalizing m with
  | nil => rfl
  | cons g gs ih =>
    rw [List.map_cons, List.mem_cons] at h
    push_neg at h
    rw [List.foldl_cons, ih _ h.2, lookupRec_fileStep_other m g k h.1]

theorem lookupRec_foldl_lineStep_empty (stem : String) (lines : List String)
    (m : List (String × Finset String)) (h : ∀ ln ∈ lines, dxTokens ln = []) :
    lookupRec (lines.foldl (lineStep stem) m) stem =
      if lines.any isDxLine then some ((lookupRec m stem).getD ∅)
      else lookupRec m stem := by
  induction lines generalizing m with
  | nil => simp
  | cons ln rest ih =>
    rw [List.foldl_cons, ih _ (fun l hl => h l (List.mem_cons_of_mem _ hl)),
      List.any_cons]
    by_cases hdx : isDxLine ln
    · have htok : (dxTokens ln).toFinset = ∅ := by
        rw [h ln (List.mem_cons_self ..)]
        rfl
      have hlu : lookupRec (lineStep stem m ln) stem
          = some ((lookupRec m stem).getD ∅) := by
        simp [lineStep, hdx, htok, lookupRec_dictUpdate_self]
      rw [hlu]
      simp [hdx]
    · have hlu : lineStep stem m ln = m := by simp [lineStep, hdx]
      rw [hlu]
      simp [hdx]

theorem foldl_lineStep_no_dx (stem : String) (lines : List String)
    (m : List (String × Finset String)) (h : ∀ ln ∈ lines, isDxLine ln = false) :
    lines.foldl (lineStep stem) m = m := by
  induction lines with
  | nil => rfl
  | cons ln rest ih =>
    rw [List.foldl_cons]
    have hlu : lineStep stem m ln = m := by
      simp [lineStep, h ln (List.mem_cons_self ..)]
    rw [hlu]
    exact ih (fun l hl => h l (List.mem_cons_of_mem _ hl))

/-- C10: a header file without any `#Dx:` line leaves the per-record mapping
— and hence every category count and the total — exactly as if the file were
absent; while a file whose stem is fresh, which has a `#Dx:` line, and all
of whose `#Dx:` lines carry zero code tokens, gets a mapping entry with the
empty code set, which the classifier marks Unlabeled. -/
theorem missing_dx_handling (fs1 : List HeaderFile) (f : HeaderFile) (fs2 : List HeaderFile) :
    ((∀ ln ∈ f.lines, isDxLine ln = false) →
      recordCodes (fs1 ++ f :: fs2) = recordCodes (fs1 ++ fs2) ∧
      splitCounts (recordCodes (fs1 ++ f :: fs2)) = splitCounts (recordCodes (fs1 ++ fs2)) ∧
      splitTotal (recordCodes (fs1 ++ f :: fs2)) = splitTotal (recordCodes (fs1 ++ fs2))) ∧
    (f.stem ∉ (fs1 ++ fs2).map HeaderFile.stem →
      (∃ ln ∈ f.lines, isDxLine ln = true) →
      (∀ ln ∈ f.lines, dxTokens ln = []) →
      lookupRec (recordCodes (fs1 ++ f :: fs2)) f.stem = some ∅ ∧
      classify ∅ = Category.unlabeled) := by
  constructor
  · intro hno
    have he : recordCodes (fs1 ++ f :: fs2) = recordCodes (fs1 ++ fs2) := by
      unfold recordCodes
      rw [List.foldl_append, List.foldl_cons, List.foldl_append]
      have hf : fileStep (fs1.foldl fileStep []) f = fs1.foldl fileStep [] :=
        foldl_lineStep_no_dx f.stem f.lines _ hno
      rw [hf]
    exact ⟨he, by rw [he], by rw [he]⟩
  · intro hfresh hdx hempty
    rw [List.map_append, List.mem_append] at hfresh
    push_neg at hfresh
    refine ⟨?_, by decide⟩
    unfold recordCodes
    rw [List.foldl_append, List.foldl_cons,
      lookupRec_foldl_fileStep_other fs2 _ _ hfresh.2]
    have hany : f.lines.any isDxLine = true := by
      rw [List.any_eq_true]
      obtain ⟨ln, hln, hl⟩ := hdx
      exact ⟨ln, hln, hl⟩
    have hstep : lookupRec (fileStep (fs1.foldl fileStep []) f) f.stem
        = if f.lines.any isDxLine then
            some ((lookupRec (fs1.foldl fileStep []) f.stem).getD ∅)
          else lookupRec (fs1.foldl fileStep []) f.stem :=
      lookupRec_foldl_lineStep_empty f.stem f.lines _ hempty
    rw [hstep, hany, if_pos rfl, lookupRec_foldl_fileStep_other fs1 _ _ hfresh.1]
    rfl

theorem missing_dx_handling_w :
    (∀ ln ∈ (HeaderFile.mk "R1" ["R1 12 500 5000"]).lines, isDxLine ln = false) ∧
    recordCodes ([] ++ HeaderFile.mk "R1" ["R1 12 500 5000"]
          :: [HeaderFile.mk "R2" ["#Dx: 164889003"]])
      = recordCodes ([] ++ [HeaderFile.mk "R2" ["#Dx: 164889003"]]) ∧
    (HeaderFile.mk "R3" ["#Dx: ", "junk"]).stem
        ∉ ([HeaderFile.mk "R2" ["#Dx: 164889003"]] ++ ([] : List HeaderFile)).map
            HeaderFile.stem ∧
    (∃ ln ∈ (HeaderFile.mk "R3" ["#Dx: ", "junk"]).lines, isDxLine ln = true) ∧
    (∀ ln ∈ (HeaderFile.mk "R3" ["#Dx: ", "junk"]).lines, dxTokens ln = []) ∧
    lookupRec
        (recordCodes ([HeaderFile.mk "R2" ["#Dx: 164889003"]]
          ++ HeaderFile.mk "R3" ["#Dx: ", "junk"] :: []))
        (HeaderFile.mk "R3" ["#Dx: ", "junk"]).stem = some ∅ ∧
    classify ∅ = Category.unlabeled :=
  ⟨by decide,
   ((missing_dx_handling [] (HeaderFile.mk "R1" ["R1 12 500 5000"])
      [HeaderFile.mk "R2" ["#Dx: 164889003"]]).1 (by decide)).1,
   by decide, by decide, by decide,
   ((missing_dx_handling [HeaderFile.mk "R2" ["#Dx: 164889003"]]
      (HeaderFile.mk "R3" ["#Dx: ", "junk"]) []).2 (by decide) (by decide) (by decide)).1,
   ((missing_dx_handling [HeaderFile.mk "R2" ["#Dx: 164889003"]]
      (HeaderFile.mk "R3" ["#Dx: ", "junk"]) []).2 (by decide) (by decide) (by decide)).2⟩

end EcgPrep
